import Mathlib

/-!
Verification of the marker-addition utilities of the
`daemonxmachina-titanicscion-interactive-map` repository.

The embedded code lives in `scripts/add_marker.py` (document loading and
saving, existing-data extraction, identifier generation, duplicate checking,
feature construction, sorted insertion) and `scripts/batch_add_markers.py`
(the batch driver's subprocess command construction).

Modelling conventions:
* JSON documents are modelled by the inductive type `JValue`; numbers are
  rationals (JSON numerals are decimal; `int()` truncation toward zero is
  `pyTrunc`).  Python `dict`s keep insertion order, hence the
  association-list representation with in-place update (`setKey`).
* Python operations that raise exceptions on ill-typed data are modelled
  with `Option`/branching; `none` marks a raised exception.
* File contents are modelled at the parsed-value level (`FileContent`):
  `json.dump` produces text that `json.load` parses back to an equal value,
  and formatting whitespace is abstracted away.
* Python's `list.sort(key=...)` is a stable sort by key; it is modelled by
  the structural insertion sort `sortBy`, which is stable and produces a
  key-sorted permutation exactly as Timsort does.
-/

namespace MarkerStore

/-- ASCII digit test: models Python's per-character digit check on ASCII data
(`str.isdigit` restricted to the ASCII range used by this tool). -/
def charIsDigit (c : Char) : Bool := 48 ≤ c.toNat && c.toNat ≤ 57

/-- Numeric value of an ASCII digit character. -/
def digitVal (c : Char) : Nat := c.toNat - 48

/-- Value of an all-digit character list, most significant digit first:
models Python's `int(s)` on all-digit strings. -/
def digitsToNat (l : List Char) : Nat := l.foldl (fun a c => 10 * a + digitVal c) 0

/-- Python's `str.isdigit()`: an empty string is not a digit string. -/
def pyIsDigit (s : String) : Bool := !s.data.isEmpty && s.data.all charIsDigit

/-- Python's `int(s)` on an all-digit string. -/
def pyStrToNat (s : String) : Nat := digitsToNat s.data

/-- Decimal digit characters of a natural number, most significant first,
with explicit fuel so that the definition is structurally recursive. -/
def natDecimalAux : Nat → Nat → List Char
  | 0, _ => []
  | fuel + 1, n =>
    if n < 10 then [Char.ofNat (48 + n)]
    else natDecimalAux fuel (n / 10) ++ [Char.ofNat (48 + n % 10)]

/-- Decimal digit characters of a natural number (`n + 1` is always enough
fuel since `n / 10 < n` for `n ≥ 10`). -/
def natDecimal (n : Nat) : List Char := natDecimalAux (n + 1) n

/-- Python's `str(n)` for a natural number. -/
def natRepr (n : Nat) : String := ⟨natDecimal n⟩

/-- Python's format specifier `03d` applied to a natural number: the decimal
representation left-padded with zeros to width 3. -/
def pad3 (n : Nat) : String :=
  ⟨List.replicate (3 - (natDecimal n).length) '0' ++ natDecimal n⟩

/-- Python's slice `s[n:]` on strings (code-point based). -/
def strDrop (s : String) (n : Nat) : String := ⟨s.data.drop n⟩

/-- Python's `s.startswith(p)` (code-point based). -/
def pyStartsWith (s p : String) : Bool := p.data.isPrefixOf s.data

/-- Lexicographic comparison of code-point sequences:
models Python's `<=` on strings. -/
def charListLe : List Char → List Char → Bool
  | [], _ => true
  | _ :: _, [] => false
  | a :: as, b :: bs =>
    if a.toNat < b.toNat then true
    else if b.toNat < a.toNat then false
    else charListLe as bs

/-- Python's `<=` on strings (lexicographic on code points). -/
def strLe (a b : String) : Bool := charListLe a.data b.data

/-- Python's `int()` applied to a (rational-valued) number: truncation
toward zero. -/
def pyTrunc (q : Rat) : Int := q.num.tdiv (q.den : Int)

/-- Python's `int(s)` acceptance and value for command-line strings: an
optional minus sign followed by digits (whitespace, `+` and underscore
forms are not exercised by this repository). -/
def pyParseInt (s : String) : Option Int :=
  match s.data with
  | [] => none
  | '-' :: rest =>
    if !rest.isEmpty && rest.all charIsDigit then some (-(digitsToNat rest : Int))
    else none
  | l => if l.all charIsDigit then some ((digitsToNat l : Int)) else none

/-- Parsed JSON values.  Object entries are kept in insertion order, as
Python dictionaries are. -/
inductive JValue : Type where
  | null : JValue
  | bool (b : Bool) : JValue
  | num (q : Rat) : JValue
  | str (s : String) : JValue
  | arr (elems : List JValue) : JValue
  | obj (entries : List (String × JValue)) : JValue

/-- Dictionary lookup: `d.get(k)` / `k in d` on a Python dict. -/
def lookupKey : List (String × JValue) → String → Option JValue
  | [], _ => none
  | (k', v) :: rest, k => if k' == k then some v else lookupKey rest k

/-- Dictionary update `d[k] = v`: replaces the value in place when the key
is present (keeping its position, as Python dicts do) and appends a new
entry otherwise. -/
def setKey : List (String × JValue) → String → JValue → List (String × JValue)
  | [], k, v => [(k, v)]
  | (k', v') :: rest, k, v =>
    if k' == k then (k, v) :: rest else (k', v') :: setKey rest k v

/-- Stable insertion of `x` into a le-sorted list, before the first element
it is le-related to. -/
def insertSorted (le : α → α → Bool) (x : α) : List α → List α
  | [] => [x]
  | y :: ys => if le x y then x :: y :: ys else y :: insertSorted le x ys

/-- Stable sort by a boolean comparison: models Python's `list.sort`. -/
def sortBy (le : α → α → Bool) : List α → List α
  | [] => []
  | x :: xs => insertSorted le x (sortBy le xs)

/-- The category whitelist `VALID_CATEGORIES` of `scripts/add_marker.py`. -/
def VALID_CATEGORIES : List String := ["bgm", "card", "chest", "decal", "enemy", "log"]

/-- `generate_next_id` of `scripts/add_marker.py` (lines 171-185): scan the
existing identifiers for those starting with `map_id + "-"` whose remainder
is all digits, take the maximal numeric value (0 when none matches), add
one and render it zero-padded to width 3 after the same leading part. -/
def generate_next_id (map_id : String) (existing_ids : List String) : String :=
  let pre := map_id ++ "-"
  let max_number := existing_ids.foldl
    (fun m eid =>
      if pyStartsWith eid pre then
        if pyIsDigit (strDrop eid pre.length) then
          max m (pyStrToNat (strDrop eid pre.length))
        else m
      else m) 0
  pre ++ pad3 (max_number + 1)

/-- The three duplicate-collision reasons printed by `check_duplicates`. -/
inductive DupReason : Type where
  | dupId : DupReason
  | dupCoords : DupReason
  | dupName : DupReason
deriving DecidableEq

/-- `check_duplicates` of `scripts/add_marker.py` (lines 188-211): the three
membership tests are evaluated independently and every detected collision
is collected into the warning list; the returned boolean is `true` exactly
when no warning was collected.  The warning strings of the source are
modelled by the `DupReason` tags in the same order. -/
def check_duplicates (marker_id : String) (x y : Int) (name : String)
    (existing_ids : List String) (existing_coords : List (Int × Int))
    (existing_names : List String) : Bool × List DupReason :=
  let warnings :=
    (if existing_ids.contains marker_id then [DupReason.dupId] else [])
    ++ (if existing_coords.contains (x, y) then [DupReason.dupCoords] else [])
    ++ (if existing_names.contains name then [DupReason.dupName] else [])
  (warnings.isEmpty, warnings)

/-- `create_marker_feature` of `scripts/add_marker.py` (lines 214-227). -/
def create_marker_feature (marker_id name category : String) (x y : Int) : JValue :=
  .obj [("type", .str "Feature"),
        ("geometry", .obj [("type", .str "Point"),
                           ("coordinates", .arr [.num (x : Rat), .num (y : Rat)])]),
        ("properties", .obj [("id", .str marker_id),
                             ("name", .str name),
                             ("category", .str category)])]

/-- Per-feature identifier extraction (`extract_existing_data`, lines
154-156): `some none` means the feature is skipped for the id collection,
`some (some v)` that it contributes `v`, and `none` that Python would raise
(a `properties` value that is not a mapping makes the subsequent key test
or indexing ill-typed; a non-container feature makes `in` raise). -/
def featureId (f : JValue) : Option (Option JValue) :=
  match f with
  | .obj entries =>
    match lookupKey entries "properties" with
    | some (.obj props) => some (lookupKey props "id")
    | some _ => none
    | none => some none
  | _ => none

/-- Per-feature coordinate extraction (`extract_existing_data`, lines
158-162): a list of fewer than two coordinates is skipped; the first two
entries are truncated to integers when both are numbers; non-numeric
leading entries make Python's `int()` raise, and non-mapping `geometry`
or non-list `coordinates` values are likewise modelled as a raise. -/
def featureCoords (f : JValue) : Option (Option (Int × Int)) :=
  match f with
  | .obj entries =>
    match lookupKey entries "geometry" with
    | some (.obj geo) =>
      match lookupKey geo "coordinates" with
      | some (.arr (.num a :: .num b :: _)) => some (some (pyTrunc a, pyTrunc b))
      | some (.arr (_ :: _ :: _)) => none
      | some (.arr _) => some none
      | some _ => none
      | none => some none
    | some _ => none
    | none => some none
  | _ => none

/-- Per-feature name extraction (`extract_existing_data`, lines 164-166),
with the same conventions as `featureId`. -/
def featureName (f : JValue) : Option (Option JValue) :=
  match f with
  | .obj entries =>
    match lookupKey entries "properties" with
    | some (.obj props) => some (lookupKey props "name")
    | some _ => none
    | none => some none
  | _ => none

/-- The loop body of `extract_existing_data` over the feature list: each
feature contributes independently to the id, coordinate and name
collections (Python uses sets; membership is what every consumer uses, so
the collections are modelled as lists in encounter order). -/
def extractFromFeatures : List JValue →
    Option (List JValue × List (Int × Int) × List JValue)
  | [] => some ([], [], [])
  | f :: rest => do
    let i ← featureId f
    let c ← featureCoords f
    let n ← featureName f
    let (ids, coords, names) ← extractFromFeatures rest
    some (i.toList ++ ids, c.toList ++ coords, n.toList ++ names)

/-- The `geojson_data.get('features', [])` access of
`extract_existing_data` (line 153): a missing key yields the empty list, a
non-list value would make the `for` loop ill-typed for feature mappings
and is modelled as a raise, and a non-mapping document makes `.get` raise. -/
def docFeatures (doc : JValue) : Option (List JValue) :=
  match doc with
  | .obj entries =>
    match lookupKey entries "features" with
    | some (.arr fs) => some fs
    | some _ => none
    | none => some []
  | _ => none

/-- `extract_existing_data` of `scripts/add_marker.py` (lines 147-168). -/
def extract_existing_data (doc : JValue) :
    Option (List JValue × List (Int × Int) × List JValue) :=
  (docFeatures doc).bind extractFromFeatures

/-- The sort key `f.get('properties', dict()).get('id', '')` of
`add_marker_to_geojson` (line 238): a feature without a `properties`
mapping, or whose properties lack an `id`, gets the empty string as key; a
non-mapping feature or properties value makes `.get` raise, and a
non-string id makes the key comparison against string keys ill-typed. -/
def sortKeyOf (f : JValue) : Option String :=
  match f with
  | .obj entries =>
    match lookupKey entries "properties" with
    | none => some ""
    | some (.obj props) =>
      match lookupKey props "id" with
      | none => some ""
      | some (.str s) => some s
      | some _ => none
    | some _ => none
  | _ => none

/-- Total version of `sortKeyOf` used once every key is known to exist. -/
def sortKeyD (f : JValue) : String := (sortKeyOf f).getD ""

/-- The comparison used to sort features: by sort key, lexicographically. -/
def featureLe (a b : JValue) : Bool := strLe (sortKeyD a) (sortKeyD b)

/-- `add_marker_to_geojson` of `scripts/add_marker.py` (lines 230-240):
insert an empty feature list when the key is absent, append the new
feature, and re-sort the whole list by id sort key.  `none` models a raise
(non-mapping document, non-list `features` value, or a feature on which
the key computation or comparison is ill-typed). -/
def add_marker_to_geojson (geojson_data marker_feature : JValue) : Option JValue :=
  match geojson_data with
  | .obj entries =>
    let entries :=
      if (lookupKey entries "features").isNone
      then setKey entries "features" (.arr []) else entries
    match lookupKey entries "features" with
    | some (.arr fs) =>
      let fs := fs ++ [marker_feature]
      if fs.all (fun f => (sortKeyOf f).isSome)
      then some (.obj (setKey entries "features" (.arr (sortBy featureLe fs))))
      else none
    | _ => none
  | _ => none

/-- Contents of a file as seen by the JSON layer: either bytes that do not
parse as JSON, or the parsed value. -/
inductive FileContent : Type where
  | invalid : FileContent
  | parsed (v : JValue) : FileContent

/-- A file system: what, if anything, each path holds. -/
def FS : Type := String → Option FileContent

/-- The two load-time failures of `load_geojson`: a structurally invalid
document (the `ValueError`s of lines 111 and 114) and undecodable contents
(the `json.JSONDecodeError` re-raise of line 119). -/
inductive LoadError : Type where
  | malformedDocument : LoadError
  | invalidEncoding : LoadError
deriving DecidableEq

/-- The fresh document returned for a missing file (lines 125-128). -/
def emptyFeatureCollection : JValue :=
  .obj [("type", .str "FeatureCollection"), ("features", .arr [])]

/-- `load_geojson` of `scripts/add_marker.py` (lines 102-128).  The second
component of the result is the file system after the call: loading only
reads, so it is returned unchanged — in particular no file is created for
a missing path. -/
def load_geojson (fs : FS) (path : String) : Except LoadError JValue × FS :=
  (match fs path with
   | none => .ok emptyFeatureCollection
   | some .invalid => .error .invalidEncoding
   | some (.parsed data) =>
     match data with
     | .obj entries =>
       match lookupKey entries "type" with
       | some (.str t) =>
         if t == "FeatureCollection" then
           match lookupKey entries "features" with
           | some (.arr _) => .ok data
           | _ => .error .malformedDocument
         else .error .malformedDocument
       | _ => .error .malformedDocument
     | _ => .error .malformedDocument
   , fs)

/-- `save_geojson` of `scripts/add_marker.py` (lines 131-144): serialize
the document to the path (parent-directory creation and indentation are
below the value-level model; the written text parses back to the same
value). -/
def save_geojson (fs : FS) (path : String) (data : JValue) : FS :=
  fun p => if p == path then some (.parsed data) else fs p

/-- One parsed line of the batch input format, i.e. the dictionary built
by `parse_marker_line` of `scripts/batch_add_markers.py` (lines 32-39);
`x` and `y` are naturals because the line pattern only admits `0-9` runs. -/
structure MarkerData : Type where
  map_id : String
  x : Nat
  y : Nat
  category : String
  name : String
  description : String

/-- The subprocess argument vector built by `run_add_marker` of
`scripts/batch_add_markers.py` (lines 44-58). -/
def run_add_marker_cmd (m : MarkerData) (dry_run : Bool) : List String :=
  ["python", "scripts/add_marker.py",
   m.map_id, natRepr m.x, natRepr m.y, m.category, m.name]
  ++ (if m.description == "" then [] else [m.description])
  ++ (if dry_run then ["--dry-run"] else [])

/-- The five positional parameters accepted by `parse_arguments` of
`scripts/add_marker.py` (lines 24-73), in declaration order. -/
structure ToolArgs : Type where
  map_id : String
  category : String
  name : String
  x : Int
  y : Int

/-- The positional-argument surface of `parse_arguments` of
`scripts/add_marker.py` (without `--categories`): exactly five positionals
are bound in the order map id, category, name, x, y; the category must be
one of `VALID_CATEGORIES` and x, y must parse as integers; fewer
positionals trigger the missing-argument error of lines 58-71 and more
trigger the argparse unrecognized-argument error. -/
def parse_arguments (positionals : List String) : Option ToolArgs :=
  match positionals with
  | [m, c, n, xs, ys] =>
    if VALID_CATEGORIES.contains c then
      match pyParseInt xs, pyParseInt ys with
      | some x, some y => some ⟨m, c, n, x, y⟩
      | _, _ => none
    else none
  | _ => none

/-! ### Decimal rendering and parsing -/

lemma charIsDigit_ofNat (d : Nat) (h : d < 10) :
    charIsDigit (Char.ofNat (48 + d)) = true := by
  interval_cases d <;> decide

lemma digitVal_ofNat (d : Nat) (h : d < 10) :
    digitVal (Char.ofNat (48 + d)) = d := by
  interval_cases d <;> decide

lemma digitsToNat_append (l : List Char) (c : Char) :
    digitsToNat (l ++ [c]) = 10 * digitsToNat l + digitVal c := by
  simp [digitsToNat, List.foldl_append]

lemma natDecimalAux_spec (fuel : Nat) :
    ∀ n, n < fuel →
      natDecimalAux fuel n ≠ [] ∧
      (∀ c ∈ natDecimalAux fuel n, charIsDigit c = true) ∧
      digitsToNat (natDecimalAux fuel n) = n := by
  induction fuel with
  | zero => intro n h; omega
  | succ fuel ih =>
    intro n h
    by_cases h10 : n < 10
    · refine ⟨by simp [natDecimalAux, h10], ?_, ?_⟩
      · intro c hc
        simp [natDecimalAux, h10] at hc
        subst hc
        exact charIsDigit_ofNat n h10
      · simp [natDecimalAux, h10, digitsToNat, digitVal_ofNat n h10]
    · have hn : 0 < n := by omega
      have hdiv : n / 10 < fuel := by
        have := Nat.div_lt_self hn (by omega : 1 < 10)
        omega
      obtain ⟨hne, hdig, hval⟩ := ih (n / 10) hdiv
      have hmod : n % 10 < 10 := Nat.mod_lt _ (by omega)
      refine ⟨by simp [natDecimalAux, h10], ?_, ?_⟩
      · intro c hc
        simp only [natDecimalAux, if_neg h10, List.mem_append, List.mem_singleton] at hc
        rcases hc with hc | hc
        · exact hdig c hc
        · subst hc; exact charIsDigit_ofNat _ hmod
      · simp only [natDecimalAux, if_neg h10, digitsToNat_append, hval,
          digitVal_ofNat _ hmod]
        omega

lemma natDecimal_ne_nil (n : Nat) : natDecimal n ≠ [] :=
  (natDecimalAux_spec (n + 1) n (Nat.lt_succ_self n)).1

lemma natDecimal_all_digit (n : Nat) :
    ∀ c ∈ natDecimal n, charIsDigit c = true :=
  (natDecimalAux_spec (n + 1) n (Nat.lt_succ_self n)).2.1

lemma digitsToNat_natDecimal (n : Nat) : digitsToNat (natDecimal n) = n :=
  (natDecimalAux_spec (n + 1) n (Nat.lt_succ_self n)).2.2

lemma digitsToNat_replicate_zero (k : Nat) (l : List Char) :
    digitsToNat (List.replicate k '0' ++ l) = digitsToNat l := by
  induction k with
  | zero => simp
  | succ k ih =>
    have : List.replicate (k + 1) '0' ++ l = '0' :: (List.replicate k '0' ++ l) := by
      simp [List.replicate_succ]
    rw [this]
    simpa [digitsToNat, digitVal] using ih

lemma pyStrToNat_pad3 (n : Nat) : pyStrToNat (pad3 n) = n := by
  show digitsToNat (List.replicate _ '0' ++ natDecimal n) = n
  rw [digitsToNat_replicate_zero, digitsToNat_natDecimal]

lemma pyIsDigit_pad3 (n : Nat) : pyIsDigit (pad3 n) = true := by
  have hne : (List.replicate (3 - (natDecimal n).length) '0' ++ natDecimal n) ≠ [] := by
    intro h
    rcases List.append_eq_nil.mp h with ⟨-, h2⟩
    exact natDecimal_ne_nil n h2
  have hall : ∀ c ∈ List.replicate (3 - (natDecimal n).length) '0' ++ natDecimal n,
      charIsDigit c = true := by
    intro c hc
    rcases List.mem_append.mp hc with hc | hc
    · rw [List.eq_of_mem_replicate hc]; decide
    · exact natDecimal_all_digit n c hc
  show (!(List.replicate _ '0' ++ natDecimal n).isEmpty
      && (List.replicate _ '0' ++ natDecimal n).all charIsDigit) = true
  rw [Bool.and_eq_true, List.all_eq_true]
  constructor
  · cases h : (List.replicate (3 - (natDecimal n).length) '0' ++ natDecimal n) with
    | nil => exact absurd h hne
    | cons a l => simp [h]
  · exact hall

/-! ### The identifier generator computes a maximum -/

/-- The amount a single existing identifier contributes to the running
maximum of `generate_next_id`: its parsed numeric suffix when it starts
with the map's leading part and the remainder is all digits, 0 otherwise. -/
def suffixContrib (pre eid : String) : Nat :=
  if pyStartsWith eid pre then
    if pyIsDigit (strDrop eid pre.length) then pyStrToNat (strDrop eid pre.length)
    else 0
  else 0

/-- The running maximum computed by the loop of `generate_next_id`. -/
def maxSuffixNum (map_id : String) (existing_ids : List String) : Nat :=
  existing_ids.foldl
    (fun m eid =>
      if pyStartsWith eid (map_id ++ "-") then
        if pyIsDigit (strDrop eid (map_id ++ "-").length) then
          max m (pyStrToNat (strDrop eid (map_id ++ "-").length))
        else m
      else m) 0

lemma generate_next_id_eq (m : String) (ids : List String) :
    generate_next_id m ids = (m ++ "-") ++ pad3 (maxSuffixNum m ids + 1) := rfl

lemma maxSuffixNum_eq_fold (m : String) (ids : List String) :
    maxSuffixNum m ids
      = ids.foldl (fun a eid => max a (suffixContrib (m ++ "-") eid)) 0 := by
  unfold maxSuffixNum
  congr 1
  funext a eid
  unfold suffixContrib
  by_cases h1 : pyStartsWith eid (m ++ "-")
  · rw [if_pos h1, if_pos h1]
    by_cases h2 : pyIsDigit (strDrop eid (m ++ "-").length)
    · rw [if_pos h2, if_pos h2]
    · rw [if_neg h2, if_neg h2, Nat.max_zero]
  · rw [if_neg h1, if_neg h1, Nat.max_zero]

lemma foldl_max_le_of_mem (g : α → Nat) :
    ∀ (l : List α) (m : Nat) (e : α), e ∈ l →
      g e ≤ l.foldl (fun a e => max a (g e)) m := by
  intro l
  induction l with
  | nil => intro m e h; cases h
  | cons x xs ih =>
    intro m e h
    rcases List.mem_cons.mp h with h | h
    · subst h
      calc g e ≤ max m (g e) := Nat.le_max_right _ _
        _ ≤ xs.foldl (fun a e => max a (g e)) (max m (g e)) :=
          foldl_max_init_le g xs _
    · exact ih _ e h
where
  foldl_max_init_le (g : α → Nat) :
      ∀ (l : List α) (m : Nat), m ≤ l.foldl (fun a e => max a (g e)) m := by
    intro l
    induction l with
    | nil => intro m; exact Nat.le_refl m
    | cons x xs ih =>
      intro m
      calc m ≤ max m (g x) := Nat.le_max_left _ _
        _ ≤ xs.foldl (fun a e => max a (g e)) (max m (g x)) := ih _

lemma foldl_max_eq_init_or_mem (g : α → Nat) :
    ∀ (l : List α) (m : Nat),
      l.foldl (fun a e => max a (g e)) m = m
        ∨ ∃ e ∈ l, l.foldl (fun a e => max a (g e)) m = g e := by
  intro l
  induction l with
  | nil => intro m; exact Or.inl rfl
  | cons x xs ih =>
    intro m
    rcases ih (max m (g x)) with h | ⟨e, he, h⟩
    · rcases max_choice m (g x) with hm | hm
      · exact Or.inl (by rw [List.foldl_cons, h, hm])
      · exact Or.inr ⟨x, List.mem_cons_self x xs, by rw [List.foldl_cons, h, hm]⟩
    · exact Or.inr ⟨e, List.mem_cons_of_mem x he, by rw [List.foldl_cons, h]⟩

lemma strMk_data (s : String) : (⟨s.data⟩ : String) = s := rfl

lemma strLength_eq_data (s : String) : s.length = s.data.length := rfl

lemma pyStartsWith_append (p s : String) : pyStartsWith (p ++ s) p = true := by
  unfold pyStartsWith
  rw [String.data_append]
  exact List.isPrefixOf_iff_prefix.mpr (List.prefix_append _ _)

lemma strDrop_append (p s : String) : strDrop (p ++ s) p.length = s := by
  unfold strDrop
  rw [String.data_append, strLength_eq_data, List.drop_left]

lemma generate_next_id_suffix (m : String) (ids : List String) :
    strDrop (generate_next_id m ids) (m ++ "-").length
      = pad3 (maxSuffixNum m ids + 1) := by
  rw [generate_next_id_eq, strDrop_append]

lemma suffixContrib_of_append_digits (p s : String) (hd : pyIsDigit s = true) :
    suffixContrib p (p ++ s) = pyStrToNat s := by
  unfold suffixContrib
  rw [if_pos (pyStartsWith_append p s), strDrop_append, if_pos hd]

/-- The freshly generated identifier is never one of the existing
identifiers: its numeric suffix strictly exceeds every matching suffix. -/
lemma generate_next_id_not_mem (m : String) (ids : List String) :
    generate_next_id m ids ∉ ids := by
  intro hmem
  have hcontrib : suffixContrib (m ++ "-") (generate_next_id m ids)
      = maxSuffixNum m ids + 1 := by
    rw [generate_next_id_eq,
      suffixContrib_of_append_digits _ _ (pyIsDigit_pad3 _), pyStrToNat_pad3]
  have hle : suffixContrib (m ++ "-") (generate_next_id m ids) ≤ maxSuffixNum m ids := by
    rw [maxSuffixNum_eq_fold]
    exact foldl_max_le_of_mem _ ids 0 _ hmem
  omega

/-- C1: for every map identifier `m` and existing identifiers `ids`, the
generated identifier is `m ++ "-"` followed by the rendering of `N + 1`,
where `N` bounds from above the numeric value of every all-digit suffix of
a member of `ids` starting with `m ++ "-"` and is either attained by such
a member or 0; the numeric suffix of the result is therefore `N + 1`.  In
particular, for ids `forest-001`, `desert-001`, `forest-003` under map
`forest`, the numeric suffix of the result is 4. -/
theorem claim_C1_generate_next_id_max (m : String) (ids : List String) :
    (∃ N, generate_next_id m ids = (m ++ "-") ++ pad3 (N + 1)
      ∧ pyStrToNat (strDrop (generate_next_id m ids) ((m ++ "-").length)) = N + 1
      ∧ (∀ eid ∈ ids, pyStartsWith eid (m ++ "-") = true →
            pyIsDigit (strDrop eid ((m ++ "-").length)) = true →
            pyStrToNat (strDrop eid ((m ++ "-").length)) ≤ N)
      ∧ (N = 0 ∨ ∃ eid ∈ ids, pyStartsWith eid (m ++ "-") = true
            ∧ pyIsDigit (strDrop eid ((m ++ "-").length)) = true
            ∧ pyStrToNat (strDrop eid ((m ++ "-").length)) = N))
    ∧ pyStrToNat (strDrop (generate_next_id "forest"
        ["forest-001", "desert-001", "forest-003"]) 7) = 4 := by
  constructor
  · refine ⟨maxSuffixNum m ids, generate_next_id_eq m ids, ?_, ?_, ?_⟩
    · rw [generate_next_id_suffix, pyStrToNat_pad3]
    · intro eid hmem hpre hdig
      have hc : suffixContrib (m ++ "-") eid
          = pyStrToNat (strDrop eid ((m ++ "-").length)) := by
        unfold suffixContrib
        rw [if_pos hpre, if_pos hdig]
      rw [← hc, maxSuffixNum_eq_fold]
      exact foldl_max_le_of_mem _ ids 0 _ hmem
    · by_cases h0 : maxSuffixNum m ids = 0
      · exact Or.inl h0
      · right
        have hcases := foldl_max_eq_init_or_mem (suffixContrib (m ++ "-")) ids 0
        rw [← maxSuffixNum_eq_fold] at hcases
        rcases hcases with h | ⟨e, he, h⟩
        · exact absurd h h0
        · refine ⟨e, he, ?_⟩
          unfold suffixContrib at h
          by_cases h1 : pyStartsWith e (m ++ "-")
          · rw [if_pos h1] at h
            by_cases h2 : pyIsDigit (strDrop e ((m ++ "-").length))
            · rw [if_pos h2] at h
              exact ⟨h1, h2, h.symm⟩
            · rw [if_neg h2] at h
              exact absurd h h0
          · rw [if_neg h1] at h
            exact absurd h h0
  · decide

theorem claim_C1_witness :
    pyStrToNat (strDrop (generate_next_id "forest"
      ["forest-001", "desert-001", "forest-003"]) 7) = 4 :=
  (claim_C1_generate_next_id_max "forest" ["forest-001", "desert-001", "forest-003"]).2

/-- C2 fails on the code: the generator pads the numeric suffix to 3
digits, not 4, so for map `forest` and no existing identifiers it returns
`forest-001` rather than the `forest-0001` asserted by the claim and by
`test_generate_next_id` in `src/test_add_marker.py`; likewise the test's
input of 4-digit identifiers yields `forest-006`, not `forest-0006`. -/
theorem claim_C2_pad_width_bug :
    generate_next_id "forest" [] = "forest-001"
    ∧ generate_next_id "forest" [] ≠ "forest-0001"
    ∧ generate_next_id "forest" ["forest-0001", "forest-0002", "forest-0005"]
        = "forest-006" :=
  ⟨by decide, by decide, by decide⟩

/-- C3: the duplicate checker evaluates the identifier, coordinate and
name membership tests independently and collects every detected collision
in its reason list; it succeeds exactly when that list is empty.  In
particular, against existing id `t-1`, coordinates `(5, 5)` and name `A`,
the candidate `(t-1, (9, 9), B)` yields exactly the id reason and the
candidate `(t-2, (5, 5), A)` yields exactly the coordinate and name
reasons. -/
theorem claim_C3_check_duplicates (marker_id : String) (x y : Int) (name : String)
    (ids : List String) (coords : List (Int × Int)) (names : List String) :
    ((check_duplicates marker_id x y name ids coords names).1 = true
        ↔ (check_duplicates marker_id x y name ids coords names).2 = [])
    ∧ (DupReason.dupId ∈ (check_duplicates marker_id x y name ids coords names).2
        ↔ marker_id ∈ ids)
    ∧ (DupReason.dupCoords ∈ (check_duplicates marker_id x y name ids coords names).2
        ↔ (x, y) ∈ coords)
    ∧ (DupReason.dupName ∈ (check_duplicates marker_id x y name ids coords names).2
        ↔ name ∈ names)
    ∧ check_duplicates "t-1" 9 9 "B" ["t-1"] [(5, 5)] ["A"]
        = (false, [DupReason.dupId])
    ∧ check_duplicates "t-2" 5 5 "A" ["t-1"] [(5, 5)] ["A"]
        = (false, [DupReason.dupCoords, DupReason.dupName]) := by
  refine ⟨?_, ?_, ?_, ?_, by decide, by decide⟩ <;>
    · unfold check_duplicates
      by_cases h1 : ids.contains marker_id <;>
        by_cases h2 : coords.contains (x, y) <;>
          by_cases h3 : names.contains name <;>
            simp_all [List.contains, List.elem_iff]

/-! ### The stable sort and the lexicographic comparison -/

lemma charListLe_trans : ∀ a b c : List Char,
    charListLe a b = true → charListLe b c = true → charListLe a c = true := by
  intro a
  induction a with
  | nil => intro b c _ _; cases b <;> cases c <;> simp [charListLe]
  | cons x xs ih =>
    intro b c hab hbc
    cases b with
    | nil => simp [charListLe] at hab
    | cons y ys =>
      cases c with
      | nil => simp [charListLe] at hbc
      | cons z zs =>
        unfold charListLe at hab hbc ⊢
        split_ifs at hab hbc ⊢ <;>
          first
            | rfl
            | omega
            | exact ih ys zs hab hbc

lemma charListLe_total : ∀ a b : List Char,
    charListLe a b = false → charListLe b a = true := by
  intro a
  induction a with
  | nil => intro b h; simp [charListLe] at h
  | cons x xs ih =>
    intro b h
    cases b with
    | nil => simp [charListLe]
    | cons y ys =>
      unfold charListLe at h ⊢
      split_ifs at h ⊢ <;>
        first
          | rfl
          | omega
          | exact ih ys h

lemma charListLe_nil_left (l : List Char) : charListLe [] l = true := by
  cases l <;> rfl

lemma charListLe_nil_right (l : List Char) :
    charListLe l [] = true → l = [] := by
  cases l with
  | nil => intro _; rfl
  | cons x xs => intro h; simp [charListLe] at h

lemma strLe_empty_left (s : String) : strLe "" s = true :=
  charListLe_nil_left s.data

lemma strLe_empty_right (s : String) : strLe s "" = true → s = "" := by
  intro h
  have hd : s.data = [] := charListLe_nil_right s.data h
  cases s with
  | mk data => cases hd; rfl

lemma featureLe_trans (a b c : JValue) :
    featureLe a b = true → featureLe b c = true → featureLe a c = true :=
  charListLe_trans _ _ _

lemma featureLe_total (a b : JValue) :
    featureLe a b = false → featureLe b a = true :=
  charListLe_total _ _

lemma insertSorted_perm (le : α → α → Bool) (x : α) :
    ∀ l : List α, (insertSorted le x l).Perm (x :: l) := by
  intro l
  induction l with
  | nil => exact List.Perm.refl _
  | cons y ys ih =>
    unfold insertSorted
    by_cases h : le x y
    · rw [if_pos h]
    · rw [if_neg h]
      exact (ih.cons y).trans (List.Perm.swap x y ys)

lemma sortBy_perm (le : α → α → Bool) :
    ∀ l : List α, (sortBy le l).Perm l := by
  intro l
  induction l with
  | nil => exact List.Perm.refl _
  | cons x xs ih =>
    exact (insertSorted_perm le x (sortBy le xs)).trans (ih.cons x)

lemma mem_insertSorted (le : α → α → Bool) (x a : α) (l : List α) :
    a ∈ insertSorted le x l ↔ a = x ∨ a ∈ l := by
  rw [(insertSorted_perm le x l).mem_iff, List.mem_cons]

lemma insertSorted_pairwise (le : α → α → Bool)
    (htrans : ∀ a b c, le a b = true → le b c = true → le a c = true)
    (htot : ∀ a b, le a b = false → le b a = true) (x : α) :
    ∀ l : List α, List.Pairwise (fun a b => le a b = true) l →
      List.Pairwise (fun a b => le a b = true) (insertSorted le x l) := by
  intro l
  induction l with
  | nil => intro _; simp [insertSorted]
  | cons y ys ih =>
    intro h
    rcases List.pairwise_cons.mp h with ⟨hy, hys⟩
    unfold insertSorted
    by_cases hxy : le x y
    · rw [if_pos hxy]
      refine List.pairwise_cons.mpr ⟨?_, h⟩
      intro z hz
      rcases List.mem_cons.mp hz with hz | hz
      · subst hz; exact hxy
      · exact htrans x y z hxy (hy z hz)
    · rw [if_neg hxy]
      refine List.pairwise_cons.mpr ⟨?_, ih hys⟩
      intro z hz
      rcases (mem_insertSorted le x z ys).mp hz with hz | hz
      · rw [hz]
        exact htot x y (by simpa using hxy)
      · exact hy z hz

lemma sortBy_pairwise (le : α → α → Bool)
    (htrans : ∀ a b c, le a b = true → le b c = true → le a c = true)
    (htot : ∀ a b, le a b = false → le b a = true) :
    ∀ l : List α, List.Pairwise (fun a b => le a b = true) (sortBy le l) := by
  intro l
  induction l with
  | nil => simp [sortBy]
  | cons x xs ih => exact insertSorted_pairwise le htrans htot x _ ih

/-! ### Insertion -/

lemma lookupKey_setKey_self (e : List (String × JValue)) (k : String) (v : JValue) :
    lookupKey (setKey e k v) k = some v := by
  induction e with
  | nil => simp [setKey, lookupKey]
  | cons p rest ih =>
    obtain ⟨k', v'⟩ := p
    unfold setKey
    by_cases h : k' == k
    · rw [if_pos h]
      simp [lookupKey]
    · rw [if_neg h]
      unfold lookupKey
      rw [if_neg h]
      exact ih

/-- What a successful insertion does: the document was a mapping whose
`features` value was a list (or absent, read as empty), every feature of
the extended list has a sort key, and the result's feature list is the
stable sort of the old list with the new feature appended. -/
lemma add_marker_features {doc mf doc' : JValue} {fs : List JValue}
    (hdoc : docFeatures doc = some fs)
    (hadd : add_marker_to_geojson doc mf = some doc') :
    (∀ f ∈ fs ++ [mf], (sortKeyOf f).isSome = true)
    ∧ docFeatures doc' = some (sortBy featureLe (fs ++ [mf])) := by
  cases doc with
  | obj entries =>
    unfold docFeatures at hdoc
    unfold add_marker_to_geojson at hadd
    dsimp only at hdoc hadd
    cases hle : lookupKey entries "features" with
    | none =>
      rw [hle] at hdoc
      have hfs : fs = [] := by simpa using hdoc.symm
      subst hfs
      simp only [hle, Option.isNone_none, if_true, lookupKey_setKey_self] at hadd
      cases hall : List.all ([] ++ [mf]) (fun f => (sortKeyOf f).isSome) with
      | false => rw [hall] at hadd; simp at hadd
      | true =>
        replace hadd : (sortKeyOf mf).isSome = true ∧
            JValue.obj (setKey (setKey entries "features" (JValue.arr []))
              "features" (JValue.arr (sortBy featureLe [mf]))) = doc' := by
          simpa [hall] using hadd
        refine ⟨fun f hf => (List.all_eq_true.mp hall) f hf, ?_⟩
        rw [← hadd.2]
        unfold docFeatures
        dsimp only
        rw [lookupKey_setKey_self]
        rfl
    | some v =>
      rw [hle] at hdoc
      cases v with
      | arr fs0 =>
        simp only [Option.some.injEq] at hdoc
        subst hdoc
        simp only [hle, Option.isNone_some, Bool.false_eq_true, if_false] at hadd
        cases hall : List.all (fs0 ++ [mf]) (fun f => (sortKeyOf f).isSome) with
        | false => rw [hall] at hadd; simp at hadd
        | true =>
          replace hadd : JValue.obj (setKey entries "features"
              (JValue.arr (sortBy featureLe (fs0 ++ [mf])))) = doc' := by
            simpa [hall] using hadd
          refine ⟨fun f hf => (List.all_eq_true.mp hall) f hf, ?_⟩
          rw [← hadd]
          unfold docFeatures
          dsimp only
          rw [lookupKey_setKey_self]
      | null => simp at hdoc
      | bool b => simp at hdoc
      | num q => simp at hdoc
      | str s => simp at hdoc
      | obj o => simp at hdoc
  | null => simp [docFeatures] at hdoc
  | bool b => simp [docFeatures] at hdoc
  | num q => simp [docFeatures] at hdoc
  | str s => simp [docFeatures] at hdoc
  | arr a => simp [docFeatures] at hdoc

/-- A successful insertion forces the document to have had a readable
feature list. -/
lemma add_marker_some_docFeatures {doc mf doc' : JValue}
    (hadd : add_marker_to_geojson doc mf = some doc') :
    ∃ fs, docFeatures doc = some fs := by
  cases doc with
  | obj entries =>
    unfold add_marker_to_geojson at hadd
    dsimp only at hadd
    cases hle : lookupKey entries "features" with
    | none =>
      refine ⟨[], ?_⟩
      unfold docFeatures
      dsimp only
      rw [hle]
    | some v =>
      cases v with
      | arr fs0 =>
        refine ⟨fs0, ?_⟩
        unfold docFeatures
        dsimp only
        rw [hle]
      | null => simp [hle] at hadd
      | bool b => simp [hle] at hadd
      | num q => simp [hle] at hadd
      | str s => simp [hle] at hadd
      | obj o => simp [hle] at hadd
  | null => simp [add_marker_to_geojson] at hadd
  | bool b => simp [add_marker_to_geojson] at hadd
  | num q => simp [add_marker_to_geojson] at hadd
  | str s => simp [add_marker_to_geojson] at hadd
  | arr a => simp [add_marker_to_geojson] at hadd

/-- C5: a successful insertion appends the new feature and re-sorts the
whole feature sequence by identifier sort key, so the resulting feature
sequence is a permutation of the old sequence plus the new feature that is
non-decreasing under the lexicographic string comparison of the keys. -/
theorem claim_C5_sorted_insert (doc mf doc' : JValue) (fs : List JValue)
    (hdoc : docFeatures doc = some fs)
    (hadd : add_marker_to_geojson doc mf = some doc') :
    ∃ fs', docFeatures doc' = some fs'
      ∧ fs'.Perm (fs ++ [mf])
      ∧ List.Pairwise (fun a b => strLe (sortKeyD a) (sortKeyD b) = true) fs' := by
  obtain ⟨hall, hfs'⟩ := add_marker_features hdoc hadd
  exact ⟨_, hfs', sortBy_perm _ _,
    sortBy_pairwise featureLe featureLe_trans featureLe_total (fs ++ [mf])⟩

theorem claim_C5_witness :
    ∃ fs', docFeatures (JValue.obj [("type", JValue.str "FeatureCollection"),
        ("features", JValue.arr [create_marker_feature "forest-001" "Rare Card" "card" 800 600])])
        = some fs'
      ∧ fs'.Perm ([] ++ [create_marker_feature "forest-001" "Rare Card" "card" 800 600])
      ∧ List.Pairwise (fun a b => strLe (sortKeyD a) (sortKeyD b) = true) fs' :=
  claim_C5_sorted_insert
    (JValue.obj [("type", JValue.str "FeatureCollection"), ("features", JValue.arr [])])
    (create_marker_feature "forest-001" "Rare Card" "card" 800 600)
    (JValue.obj [("type", JValue.str "FeatureCollection"),
      ("features", JValue.arr [create_marker_feature "forest-001" "Rare Card" "card" 800 600])])
    [] rfl rfl

/-- C10: insertion copes with irregular documents and features: a mapping
without a `features` key gets one, so the result holds exactly the new
feature; a feature without a `properties` mapping, or whose properties
lack an `id`, sorts with the empty string as its key; and in any
successfully inserted result, every feature placed after a feature with a
non-empty key has a non-empty key — equivalently, predecessors of an
empty-keyed feature are empty-keyed. -/
theorem claim_C10_total_insert :
    (∀ (entries : List (String × JValue)) (mf : JValue) (k : String),
       lookupKey entries "features" = none → sortKeyOf mf = some k →
       ∃ doc', add_marker_to_geojson (.obj entries) mf = some doc'
         ∧ docFeatures doc' = some [mf])
    ∧ (∀ entries : List (String × JValue),
         lookupKey entries "properties" = none →
         sortKeyOf (.obj entries) = some "")
    ∧ (∀ (entries : List (String × JValue)) (props : List (String × JValue)),
         lookupKey entries "properties" = some (.obj props) →
         lookupKey props "id" = none →
         sortKeyOf (.obj entries) = some "")
    ∧ (∀ (doc mf doc' : JValue) (fs' : List JValue),
         add_marker_to_geojson doc mf = some doc' →
         docFeatures doc' = some fs' →
         ∀ i j : Fin fs'.length, i < j →
           sortKeyD (fs'.get j) = "" → sortKeyD (fs'.get i) = "") := by
  refine ⟨?_, ?_, ?_, ?_⟩
  · intro entries mf k h1 hk
    refine ⟨.obj (setKey (setKey entries "features" (.arr []))
        "features" (.arr [mf])), ?_, ?_⟩
    · unfold add_marker_to_geojson
      dsimp only
      simp only [h1, Option.isNone_none, if_true, lookupKey_setKey_self]
      simp [hk, sortBy, insertSorted]
    · unfold docFeatures
      dsimp only
      rw [lookupKey_setKey_self]
  · intro entries h
    unfold sortKeyOf
    dsimp only
    rw [h]
  · intro entries props h1 h2
    unfold sortKeyOf
    dsimp only
    rw [h1]
    dsimp only
    rw [h2]
  · intro doc mf doc' fs' hadd hfs' i j hij hj
    obtain ⟨fs, hdoc⟩ := add_marker_some_docFeatures hadd
    obtain ⟨hall, hsorted⟩ := add_marker_features hdoc hadd
    rw [hfs'] at hsorted
    have hfs'eq : fs' = sortBy featureLe (fs ++ [mf]) := by
      exact (Option.some.injEq _ _ ▸ hsorted : _)
    have hpw : List.Pairwise (fun a b => featureLe a b = true) fs' := by
      rw [hfs'eq]
      exact sortBy_pairwise featureLe featureLe_trans featureLe_total _
    have hle := (List.pairwise_iff_get.mp hpw) i j hij
    have : strLe (sortKeyD (fs'.get i)) (sortKeyD (fs'.get j)) = true := hle
    rw [hj] at this
    exact strLe_empty_right _ this

theorem claim_C10_witness :
    ∃ doc', add_marker_to_geojson (JValue.obj [("type", JValue.str "FeatureCollection")])
        (create_marker_feature "forest-001" "A" "card" 1 2) = some doc'
      ∧ docFeatures doc' = some [create_marker_feature "forest-001" "A" "card" 1 2] :=
  claim_C10_total_insert.1 _ _ "forest-001" rfl rfl

/-! ### Extraction -/

lemma extractFromFeatures_some (fs : List JValue)
    (h : ∀ f ∈ fs, (featureId f).isSome = true
      ∧ (featureCoords f).isSome = true ∧ (featureName f).isSome = true) :
    extractFromFeatures fs = some
      (fs.filterMap (fun f => (featureId f).join),
       fs.filterMap (fun f => (featureCoords f).join),
       fs.filterMap (fun f => (featureName f).join)) := by
  induction fs with
  | nil => rfl
  | cons f rest ih =>
    obtain ⟨h1, h2, h3⟩ := h f (List.mem_cons_self f rest)
    obtain ⟨i, hi⟩ := Option.isSome_iff_exists.mp h1
    obtain ⟨c, hc⟩ := Option.isSome_iff_exists.mp h2
    obtain ⟨n, hn⟩ := Option.isSome_iff_exists.mp h3
    have hrest := ih (fun g hg => h g (List.mem_cons_of_mem _ hg))
    unfold extractFromFeatures
    simp only [hi, hc, hn, hrest, Option.bind_eq_bind, Option.some_bind,
      List.filterMap_cons]
    cases i <;> cases c <;> cases n <;> simp [Option.toList]

/-- The feature shapes the extraction claim quantifies over: mappings
whose `properties` value, when present, is a mapping, and whose
`geometry`, when present, is a mapping whose `coordinates`, when present,
is a list that is short or starts with two numbers.  Keys may be missing
anywhere. -/
def partialFeature (f : JValue) : Prop :=
  ∃ entries, f = .obj entries
    ∧ (lookupKey entries "properties" = none
        ∨ ∃ props, lookupKey entries "properties" = some (.obj props))
    ∧ (lookupKey entries "geometry" = none
        ∨ ∃ geo, lookupKey entries "geometry" = some (.obj geo)
            ∧ (lookupKey geo "coordinates" = none
                ∨ ∃ cs, lookupKey geo "coordinates" = some (.arr cs)
                    ∧ (cs.length ≤ 1 ∨ ∃ a b rest, cs = .num a :: .num b :: rest)))

lemma partialFeature_extractors {f : JValue} (h : partialFeature f) :
    (featureId f).isSome = true
      ∧ (featureCoords f).isSome = true ∧ (featureName f).isSome = true := by
  obtain ⟨entries, rfl, hp, hg⟩ := h
  refine ⟨?_, ?_, ?_⟩
  · unfold featureId
    dsimp only
    rcases hp with hp | ⟨props, hp⟩ <;> rw [hp] <;> rfl
  · unfold featureCoords
    dsimp only
    rcases hg with hg | ⟨geo, hg, hcs⟩
    · rw [hg]; rfl
    · rw [hg]
      dsimp only
      rcases hcs with hcs | ⟨cs, hcs, hshape⟩
      · rw [hcs]; rfl
      · rw [hcs]
        rcases hshape with hshort | ⟨a, b, rest, rfl⟩
        · rcases cs with _ | ⟨x, _ | ⟨y, tail⟩⟩
          · rfl
          · cases x <;> rfl
          · simp at hshort
        · rfl
  · unfold featureName
    dsimp only
    rcases hp with hp | ⟨props, hp⟩ <;> rw [hp] <;> rfl

/-- C7: extraction is total on partially-formed features — a feature
missing its id, coordinates, or name is skipped only for that collection
and still contributes to the collections it has values for (each
collection is the independent `filterMap` of the per-feature extractor) —
and coordinate values are truncated to integers.  The concrete document
whose sole feature has no `properties` but carries float coordinates
`(3.5, -2.25)` extracts to no ids, no names, and the single truncated
pair `(3, -2)`. -/
theorem claim_C7_extract_total (fs : List JValue) (h : ∀ f ∈ fs, partialFeature f) :
    (extractFromFeatures fs = some
      (fs.filterMap (fun f => (featureId f).join),
       fs.filterMap (fun f => (featureCoords f).join),
       fs.filterMap (fun f => (featureName f).join)))
    ∧ (∀ (entries geo : List (String × JValue)) (a b : Rat) (rest : List JValue),
         lookupKey entries "geometry" = some (.obj geo) →
         lookupKey geo "coordinates" = some (.arr (.num a :: .num b :: rest)) →
         featureCoords (.obj entries) = some (some (pyTrunc a, pyTrunc b)))
    ∧ extract_existing_data (JValue.obj [("type", JValue.str "FeatureCollection"),
        ("features", JValue.arr [JValue.obj [("geometry", JValue.obj
          [("type", JValue.str "Point"),
           ("coordinates", JValue.arr [JValue.num (Rat.divInt 7 2), JValue.num (Rat.divInt (-9) 4)])])]])])
        = some ([], [(3, -2)], []) := by
  refine ⟨extractFromFeatures_some fs (fun f hf => partialFeature_extractors (h f hf)),
    ?_, by rfl⟩
  intro entries geo a b rest hg hcs
  unfold featureCoords
  dsimp only
  rw [hg]
  dsimp only
  rw [hcs]

theorem claim_C7_witness :
    extractFromFeatures [JValue.obj [("properties", JValue.obj
        [("id", JValue.str "forest-001")])]]
      = some ([JValue.str "forest-001"], [], []) := by
  have h := (claim_C7_extract_total
    [JValue.obj [("properties", JValue.obj [("id", JValue.str "forest-001")])]]
    (by
      intro f hf
      rcases List.mem_singleton.mp hf with rfl
      exact ⟨_, rfl, Or.inr ⟨_, rfl⟩, Or.inl rfl⟩)).1
  simpa using h

lemma extractFromFeatures_all_isSome :
    ∀ {fs : List JValue} {t : List JValue × List (Int × Int) × List JValue},
      extractFromFeatures fs = some t →
      ∀ f ∈ fs, (featureId f).isSome = true
        ∧ (featureCoords f).isSome = true ∧ (featureName f).isSome = true := by
  intro fs
  induction fs with
  | nil => intro t _ f hf; cases hf
  | cons f rest ih =>
    intro t h g hg
    unfold extractFromFeatures at h
    simp only [Option.bind_eq_bind] at h
    obtain ⟨i, hI, h⟩ := Option.bind_eq_some.mp h
    obtain ⟨c, hC, h⟩ := Option.bind_eq_some.mp h
    obtain ⟨n, hN, h⟩ := Option.bind_eq_some.mp h
    obtain ⟨t', hR, h⟩ := Option.bind_eq_some.mp h
    rcases List.mem_cons.mp hg with rfl | hg
    · exact ⟨by rw [hI]; rfl, by rw [hC]; rfl, by rw [hN]; rfl⟩
    · exact ih hR g hg

lemma extractFromFeatures_inv {fs : List JValue}
    {t : List JValue × List (Int × Int) × List JValue}
    (h : extractFromFeatures fs = some t) :
    (∀ f ∈ fs, (featureId f).isSome = true
      ∧ (featureCoords f).isSome = true ∧ (featureName f).isSome = true)
    ∧ t = (fs.filterMap (fun f => (featureId f).join),
           fs.filterMap (fun f => (featureCoords f).join),
           fs.filterMap (fun f => (featureName f).join)) := by
  have hall := extractFromFeatures_all_isSome h
  refine ⟨hall, ?_⟩
  have heq := extractFromFeatures_some fs hall
  rw [h] at heq
  exact (Option.some.injEq _ _ ▸ heq : _)

lemma jstr_injective : Function.Injective JValue.str := by
  intro a b h
  injection h

/-- C4: the generated identifier is never a member of the extracted
existing-id list, and the insertion pipeline preserves pairwise-distinct
feature identifiers: when every extracted id is a string and they are
pairwise distinct, the inserted document's extracted id list is a
permutation of the old ids plus the new one and is still pairwise
distinct. -/
theorem claim_C4_id_uniqueness
    (doc doc' : JValue) (m cat nm : String) (x y : Int)
    (strIds strNames : List String) (coords : List (Int × Int))
    (names : List JValue) (fs : List JValue)
    (hdoc : docFeatures doc = some fs)
    (hex : extractFromFeatures fs = some (strIds.map JValue.str, coords, names))
    (_hnames : names = strNames.map JValue.str)
    (hnd : strIds.Nodup)
    (_hchk : (check_duplicates (generate_next_id m strIds) x y nm
        strIds coords strNames).1 = true)
    (hadd : add_marker_to_geojson doc
        (create_marker_feature (generate_next_id m strIds) nm cat x y) = some doc') :
    generate_next_id m strIds ∉ strIds
    ∧ ∃ fs' coords' names',
        docFeatures doc' = some fs'
        ∧ extractFromFeatures fs'
            = some (fs'.filterMap (fun f => (featureId f).join), coords', names')
        ∧ (fs'.filterMap (fun f => (featureId f).join)).Perm
            (strIds.map JValue.str ++ [JValue.str (generate_next_id m strIds)])
        ∧ (fs'.filterMap (fun f => (featureId f).join)).Nodup := by
  have hnotmem := generate_next_id_not_mem m strIds
  refine ⟨hnotmem, ?_⟩
  obtain ⟨hall, hfeat⟩ := add_marker_features hdoc hadd
  obtain ⟨hexall, hteq⟩ := extractFromFeatures_inv hex
  have hids : fs.filterMap (fun f => (featureId f).join) = strIds.map JValue.str := by
    have := congrArg Prod.fst hteq
    exact this.symm
  have hmfall : (featureId (create_marker_feature (generate_next_id m strIds) nm cat x y)).isSome = true
      ∧ (featureCoords (create_marker_feature (generate_next_id m strIds) nm cat x y)).isSome = true
      ∧ (featureName (create_marker_feature (generate_next_id m strIds) nm cat x y)).isSome = true :=
    ⟨rfl, rfl, rfl⟩
  have hperm : (sortBy featureLe
      (fs ++ [create_marker_feature (generate_next_id m strIds) nm cat x y])).Perm
      (fs ++ [create_marker_feature (generate_next_id m strIds) nm cat x y]) :=
    sortBy_perm _ _
  have hallmem : ∀ f ∈ sortBy featureLe
      (fs ++ [create_marker_feature (generate_next_id m strIds) nm cat x y]),
      (featureId f).isSome = true
        ∧ (featureCoords f).isSome = true ∧ (featureName f).isSome = true := by
    intro f hf
    rcases List.mem_append.mp (hperm.mem_iff.mp hf) with hf | hf
    · exact hexall f hf
    · rcases List.mem_singleton.mp hf with rfl
      exact hmfall
  have hex' := extractFromFeatures_some _ hallmem
  have happend : (fs ++ [create_marker_feature (generate_next_id m strIds) nm cat x y]).filterMap
      (fun f => (featureId f).join)
      = strIds.map JValue.str ++ [JValue.str (generate_next_id m strIds)] := by
    rw [List.filterMap_append, hids]
    rfl
  have hidsperm : ((sortBy featureLe
      (fs ++ [create_marker_feature (generate_next_id m strIds) nm cat x y])).filterMap
        (fun f => (featureId f).join)).Perm
      (strIds.map JValue.str ++ [JValue.str (generate_next_id m strIds)]) :=
    happend ▸ List.Perm.filterMap _ hperm
  refine ⟨_, _, _, hfeat, hex', hidsperm, ?_⟩
  refine hidsperm.nodup_iff.mpr ?_
  rw [List.nodup_append]
  refine ⟨hnd.map jstr_injective, List.nodup_singleton _, ?_⟩
  intro a ha hb
  rcases List.mem_map.mp ha with ⟨s, hs, rfl⟩
  rcases List.mem_singleton.mp hb with heq
  exact hnotmem (jstr_injective heq ▸ hs)

theorem claim_C4_witness :
    generate_next_id "forest" [] ∉ ([] : List String)
    ∧ ∃ fs' coords' names',
        docFeatures (JValue.obj [("type", JValue.str "FeatureCollection"),
          ("features", JValue.arr [create_marker_feature
            (generate_next_id "forest" []) "Rare Card" "card" 800 600])]) = some fs'
        ∧ extractFromFeatures fs'
            = some (fs'.filterMap (fun f => (featureId f).join), coords', names')
        ∧ (fs'.filterMap (fun f => (featureId f).join)).Perm
            (([] : List String).map JValue.str ++ [JValue.str (generate_next_id "forest" [])])
        ∧ (fs'.filterMap (fun f => (featureId f).join)).Nodup :=
  claim_C4_id_uniqueness
    (JValue.obj [("type", JValue.str "FeatureCollection"), ("features", JValue.arr [])])
    (JValue.obj [("type", JValue.str "FeatureCollection"),
      ("features", JValue.arr [create_marker_feature
        (generate_next_id "forest" []) "Rare Card" "card" 800 600])])
    "forest" "card" "Rare Card" 800 600 [] [] [] [] []
    rfl rfl rfl List.nodup_nil rfl rfl

/-! ### Loading and saving -/

/-- The structural validity checked by `load_geojson`: a mapping carrying
the `FeatureCollection` discriminator and a list under `features`. -/
def wellFormedDoc (v : JValue) : Prop :=
  ∃ entries fs, v = .obj entries
    ∧ lookupKey entries "type" = some (.str "FeatureCollection")
    ∧ lookupKey entries "features" = some (.arr fs)

/-- C6: the loader returns the untouched file system (no file is created),
yields a fresh well-formed empty FeatureCollection when no file exists,
fails with the invalid-encoding error when the contents do not parse, and
on parsed contents succeeds exactly on well-formed documents, failing with
the malformed-document error otherwise. -/
theorem claim_C6_load (fs : FS) (p : String) :
    (load_geojson fs p).2 = fs
    ∧ (fs p = none →
        (load_geojson fs p).1 = .ok emptyFeatureCollection
        ∧ wellFormedDoc emptyFeatureCollection
        ∧ docFeatures emptyFeatureCollection = some [])
    ∧ (fs p = some .invalid →
        (load_geojson fs p).1 = .error .invalidEncoding)
    ∧ (∀ v, fs p = some (.parsed v) →
        (wellFormedDoc v → (load_geojson fs p).1 = .ok v)
        ∧ (¬ wellFormedDoc v →
            (load_geojson fs p).1 = .error .malformedDocument)) := by
  refine ⟨rfl, ?_, ?_, ?_⟩
  · intro h
    refine ⟨?_, ⟨_, [], rfl, rfl, rfl⟩, rfl⟩
    unfold load_geojson
    rw [h]
  · intro h
    unfold load_geojson
    rw [h]
  · intro v hv
    constructor
    · rintro ⟨entries, fsl, rfl, ht, hf⟩
      unfold load_geojson
      rw [hv]
      dsimp only
      rw [ht]
      dsimp only
      rw [if_pos (by rfl : ("FeatureCollection" == "FeatureCollection") = true), hf]
    · intro hnwf
      cases v with
      | obj entries =>
        unfold load_geojson
        rw [hv]
        dsimp only
        cases ht : lookupKey entries "type" with
        | none => rfl
        | some tv =>
          cases tv with
          | str t =>
            dsimp only
            by_cases hteq : (t == "FeatureCollection") = true
            · rw [if_pos hteq]
              cases hf : lookupKey entries "features" with
              | none => rfl
              | some fv =>
                cases fv with
                | arr l =>
                  exact absurd ⟨entries, l, rfl,
                    by rw [ht, (beq_iff_eq ..).mp hteq], hf⟩ hnwf
                | null => rfl
                | bool b => rfl
                | num q => rfl
                | str s => rfl
                | obj o => rfl
            · rw [if_neg hteq]
          | null => rfl
          | bool b => rfl
          | num q => rfl
          | arr l => rfl
          | obj o => rfl
      | null =>
        unfold load_geojson
        rw [hv]
      | bool b =>
        unfold load_geojson
        rw [hv]
      | num q =>
        unfold load_geojson
        rw [hv]
      | str s =>
        unfold load_geojson
        rw [hv]
      | arr l =>
        unfold load_geojson
        rw [hv]

theorem claim_C6_witness :
    (load_geojson (fun _ => none) "assets/data/markers/forest.geojson").2
        = (fun _ => none)
    ∧ (load_geojson (fun _ => none) "assets/data/markers/forest.geojson").1
        = .ok emptyFeatureCollection :=
  ⟨(claim_C6_load (fun _ => none) "assets/data/markers/forest.geojson").1,
   ((claim_C6_load (fun _ => none) "assets/data/markers/forest.geojson").2.1 rfl).1⟩

/-- C8: saving a well-formed document and loading it back from the same
path yields the pre-save in-memory document. -/
theorem claim_C8_round_trip (fs : FS) (p : String) (doc : JValue)
    (hwf : wellFormedDoc doc) :
    (load_geojson (save_geojson fs p doc) p).1 = .ok doc := by
  obtain ⟨entries, fsl, rfl, ht, hf⟩ := hwf
  unfold load_geojson save_geojson
  dsimp only
  rw [if_pos (beq_self_eq_true p)]
  dsimp only
  rw [ht]
  dsimp only
  rw [if_pos (by rfl : ("FeatureCollection" == "FeatureCollection") = true), hf]

theorem claim_C8_witness :
    (load_geojson (save_geojson (fun _ => none) "assets/data/markers/forest.geojson"
        emptyFeatureCollection) "assets/data/markers/forest.geojson").1
      = .ok emptyFeatureCollection :=
  claim_C8_round_trip (fun _ => none) "assets/data/markers/forest.geojson"
    emptyFeatureCollection ⟨_, [], rfl, rfl, rfl⟩

/-! ### The batch driver -/

lemma natRepr_not_mem_categories (n : Nat) : natRepr n ∉ VALID_CATEGORIES := by
  intro hmem
  have hd := natDecimal_all_digit n
  simp only [VALID_CATEGORIES, List.mem_cons, List.not_mem_nil, or_false] at hmem
  rcases hmem with h | h | h | h | h | h <;>
    · have hm : natDecimal n = _ := congrArg String.data h
      rw [hm] at hd
      revert hd
      decide

/-- C9 fails on the code: for every parsed batch line, the driver passes
the positionals in the order map id, x, y, category, name — not the
map id, category, name, x, y order the tool accepts — so the tool's
argument parser rejects every batch invocation (the category slot
receives the decimal rendering of x, never a valid category; with a
description the invocation has a sixth positional and is likewise
rejected). -/
theorem claim_C9_batch_arg_order_bug (m : MarkerData) :
    (m.description = "" →
      (run_add_marker_cmd m false).drop 2
        = [m.map_id, natRepr m.x, natRepr m.y, m.category, m.name])
    ∧ parse_arguments ((run_add_marker_cmd m false).drop 2) = none := by
  have hcat : (VALID_CATEGORIES.contains (natRepr m.x)) = false := by
    cases hcon : VALID_CATEGORIES.contains (natRepr m.x)
    · rfl
    · exact absurd (List.elem_iff.mp hcon) (natRepr_not_mem_categories m.x)
  constructor
  · intro hdesc
    unfold run_add_marker_cmd
    rw [hdesc]
    simp
  · by_cases hdesc : m.description = ""
    · have h5 : (run_add_marker_cmd m false).drop 2
          = [m.map_id, natRepr m.x, natRepr m.y, m.category, m.name] := by
        unfold run_add_marker_cmd
        rw [hdesc]
        simp
      rw [h5]
      unfold parse_arguments
      dsimp only
      rw [hcat]
      rfl
    · have h6 : (run_add_marker_cmd m false).drop 2
          = [m.map_id, natRepr m.x, natRepr m.y, m.category, m.name,
             m.description] := by
        unfold run_add_marker_cmd
        rw [if_neg (by simpa using hdesc), if_neg (by simp)]
        simp
      rw [h6]
      rfl

theorem claim_C9_witness :
    (run_add_marker_cmd ⟨"forest", 800, 600, "card", "Rare Card", ""⟩ false).drop 2
      = ["forest", natRepr 800, natRepr 600, "card", "Rare Card"]
    ∧ parse_arguments ((run_add_marker_cmd
        ⟨"forest", 800, 600, "card", "Rare Card", ""⟩ false).drop 2) = none :=
  ⟨(claim_C9_batch_arg_order_bug ⟨"forest", 800, 600, "card", "Rare Card", ""⟩).1 rfl,
   (claim_C9_batch_arg_order_bug ⟨"forest", 800, 600, "card", "Rare Card", ""⟩).2⟩

end MarkerStore
